import Mathlib

/-!
Verification development for the fw-id-agent Daemon API server
(`internal/api/server.go`).

The server code is embedded shallowly: every external call whose outcome
the code branches on (setting the connection deadline, reading the framed
message, writing the error reply, closing the listener, removing the stale
socket file, binding the listener, setting permissions, resolving the
current user) is represented by an explicit input describing its outcome,
and each function is translated into a pure Lean function that returns the
ordered list of observable effects it performs (log lines, connection
closes, message writes, channel sends, channel close, process abort).
-/

namespace FwIdAgent

/-- Modelled from the spec: the message type constants (`TypeQuery`,
`TypeRelogin`, `TypeError`) are declared in the API package's message
codec file, which is not part of the server source; the spec describes an
enumerated closed set with a query type, a re-authentication type and an
error variant. Only their mutual distinctness matters here. -/
def TypeQuery : Nat := 3

/-- Modelled from the spec: the re-authentication message type constant. -/
def TypeRelogin : Nat := 4

/-- Modelled from the spec: the error message type constant. -/
def TypeError : Nat := 2

/-- A framed API message: a discriminated type field and a byte payload
(bytes rendered as a string here). -/
structure Message where
  type : Nat
  payload : String
deriving Repr, DecidableEq

/-- Modelled from the spec: `NewError` (from the codec file, not in the
server source) builds an error-variant message carrying the given
payload. -/
def NewError (p : String) : Message :=
  { type := TypeError, payload := p }

/-- One observable effect performed by the server. Connections are
identified by a natural number. -/
inductive Effect where
  | logError (text : String)
  | logWarn (text : String)
  | fatal (text : String)
  | setStopping
  | closeConn (c : Nat)
  | writeMsg (c : Nat) (m : Message)
  | sendRequest (c : Nat) (m : Message)
  | closeListener
  | closeChannel
  | chmodSockFile
  | spawnAcceptLoop
deriving Repr, DecidableEq

/-- The environment-determined outcomes for one accepted connection:
whether `conn.SetDeadline` fails, what `ReadMessage` returns (`none` for a
read error), and whether `WriteMessage` of the error reply fails. -/
structure ConnEvents where
  conn : Nat
  deadlineErr : Bool
  readResult : Option Message
  writeErr : Bool
deriving Repr, DecidableEq

/-- Embedding of `Server.handleRequest`: set the 30-second deadline (log
and close on failure), read one message (log and close on failure), check
the type against the switch over `TypeQuery` and `TypeRelogin` (on the
default branch write a `NewError "invalid message"` reply, log a send
error if the write fails, and close the connection), then forward the
request on the requests channel. -/
def handleRequest (c : ConnEvents) : List Effect :=
  if c.deadlineErr then
    [.logError "Agent got error setting deadline", .closeConn c.conn]
  else
    match c.readResult with
    | none =>
        [.logError "Agent got message receive error", .closeConn c.conn]
    | some msg =>
        (if msg.type = TypeQuery then []
         else if msg.type = TypeRelogin then []
         else
           [.writeMsg c.conn (NewError "invalid message")] ++
           (if c.writeErr then [.logError "Agent got message send error"]
            else []) ++
           [.closeConn c.conn]) ++
        [.sendRequest c.conn msg]

/-- Embedding of `Server.handleClients`: the accept loop handles each
successfully accepted connection in order with `handleRequest`; when
`Accept` returns an error the loop returns (logging the listener error
unless the stopping flag is set), and the deferred cleanup closes the
listener and then closes the requests channel. `conns` is the sequence of
successful accepts before the accept error, and `stopping` is the value of
the stopping flag observed at the accept error. -/
def handleClients (conns : List ConnEvents) (stopping : Bool) : List Effect :=
  conns.flatMap handleRequest ++
  (if stopping then [] else [.logError "Agent got listener error"]) ++
  [.closeListener, .closeChannel]

/-- Embedding of `Server.Start`: best-effort remove the stale socket file
(warn only when the removal succeeded), bind the unix listener (fatal,
aborting the process, on failure), chmod the socket file to 0700 (log on
failure), and spawn the accept loop. `removeErr` is true when `os.Remove`
failed (no file present), `bindErr` when `net.Listen` failed, `chmodErr`
when `os.Chmod` failed. -/
def Start (removeErr bindErr chmodErr : Bool) : List Effect :=
  (if removeErr then [] else [.logWarn "Removed existing unix socket file"]) ++
  if bindErr then [.fatal "Agent could not start unix listener"]
  else
    (if chmodErr then
       [.logError "Agent could not set permissions of socket file"]
     else []) ++
    [.chmodSockFile, .spawnAcceptLoop]

/-- Embedding of the first half of `Server.Stop`: set the stopping flag,
then close the listener; a close failure is fatal and aborts the process.
`closeErr` is true when `listen.Close` failed. After these effects (when
not aborted) `Stop` enters the drain loop `for range s.requests`. -/
def stopEffects (closeErr : Bool) : List Effect :=
  [.setStopping, .closeListener] ++
  if closeErr then [.fatal "Agent could not close unix listener"] else []

/-- Embedding of the drain loop `for range s.requests` in `Server.Stop`:
it consumes effects of the concurrently running accept loop until it
observes the requests channel closed, at which point `Stop` returns;
`some rest` gives the accept-loop effects that come after the return, and
`none` means the channel is never closed so `Stop` never returns. -/
def drainUntilClosed : List Effect → Option (List Effect)
  | [] => none
  | .closeChannel :: rest => some rest
  | _ :: rest => drainUntilClosed rest

/-- The server state: socket file path, the listener (assigned only by a
successful `Start`, `none` as left by `NewServer`), and the stopping
flag. -/
structure Server where
  sockFile : String
  listen : Option Unit
  stop : Bool
deriving Repr, DecidableEq

/-- Embedding of `NewServer`: the listener field is left at its zero
value (nil). -/
def NewServer (sockFile : String) : Server :=
  { sockFile := sockFile, listen := none, stop := false }

/-- Embedding of the listener assignment `s.listen = listen` performed by
a successful `Start`. -/
def startAssignListener (s : Server) : Server :=
  { s with listen := some () }

/-- A Go runtime panic relevant to this code. -/
inductive GoPanic where
  | nilDereference
deriving Repr, DecidableEq

/-- Embedding of the `s.listen.Close()` call in `Server.Stop`: calling a
method on a nil listener interface value is a nil dereference panic in
Go. -/
def stopCloseListener (s : Server) : Except GoPanic Unit :=
  match s.listen with
  | none => .error .nilDereference
  | some _ => .ok ()

/-- Embedding of `GetUserSocketFile`: resolve the current user (fatal,
aborting the process, when the lookup fails) and return
`"/tmp/fw-id-agent-"` followed by the user's numeric id. `userResult` is
the outcome of `user.Current()`, carrying the uid string on success. -/
def GetUserSocketFile (userResult : Option String) : Except String String :=
  match userResult with
  | none => .error "Agent could not get current user"
  | some uid => .ok ("/tmp/fw-id-agent-" ++ uid)

/-- The request forwarded for one accepted connection, when intake reaches
the forwarding step: the read message together with its connection. -/
def forwarded (c : ConnEvents) : Option (Nat × Message) :=
  if c.deadlineErr then none
  else
    match c.readResult with
    | none => none
    | some msg => some (c.conn, msg)

/-- Projection of an effect to a channel send, used to extract the
sequence of handoffs from a trace. -/
def sendOf : Effect → Option (Nat × Message)
  | .sendRequest c m => some (c, m)
  | _ => none

/-- Whether an effect is a message write on a connection. -/
def isWrite : Effect → Bool
  | .writeMsg _ _ => true
  | _ => false

/-- Every effect of `handleRequest` is one of the three log lines, the
connection close, the single error write, or the channel send, all on the
handled connection. -/
theorem mem_handleRequest (c : ConnEvents) (e : Effect)
    (he : e ∈ handleRequest c) :
    e = .logError "Agent got error setting deadline" ∨
    e = .logError "Agent got message receive error" ∨
    e = .logError "Agent got message send error" ∨
    e = .closeConn c.conn ∨
    e = .writeMsg c.conn (NewError "invalid message") ∨
    ∃ m, e = .sendRequest c.conn m := by
  rcases c with ⟨cn, de, rr, we⟩
  cases de
  · rcases rr with _ | msg
    · simp [handleRequest] at he
      tauto
    · simp only [handleRequest, Bool.false_eq_true, if_false] at he
      rw [List.mem_append] at he
      rcases he with h | h
      · by_cases h1 : msg.type = TypeQuery
        · simp [h1] at h
        · by_cases h2 : msg.type = TypeRelogin
          · simp [h1, h2] at h
          · cases we <;> simp [h1, h2] at h <;> tauto
      · simp at h
        exact .inr (.inr (.inr (.inr (.inr ⟨msg, h⟩))))
  · simp [handleRequest] at he
    tauto

theorem closeChannel_not_mem_flatMap (conns : List ConnEvents) :
    Effect.closeChannel ∉ conns.flatMap handleRequest := by
  intro h
  rw [List.mem_flatMap] at h
  obtain ⟨c, _, hc⟩ := h
  rcases mem_handleRequest c _ hc with h | h | h | h | h | ⟨m, h⟩ <;> simp at h

theorem listenerLog_not_mem_flatMap (conns : List ConnEvents) :
    Effect.logError "Agent got listener error" ∉ conns.flatMap handleRequest := by
  intro h
  rw [List.mem_flatMap] at h
  obtain ⟨c, _, hc⟩ := h
  rcases mem_handleRequest c _ hc with h | h | h | h | h | ⟨m, h⟩ <;> simp at h

theorem handleClients_cons (c : ConnEvents) (rest : List ConnEvents)
    (st : Bool) :
    handleClients (c :: rest) st = handleRequest c ++ handleClients rest st := by
  simp [handleClients]

/-- C1: for every accepted connection whose message is read successfully,
`handleRequest` sends the request on the handoff channel regardless of the
validation outcome: the trace always ends with the channel send, and in
the unrecognized-type case the connection close occurs strictly before
that send. -/
theorem handleRequest_forwards_regardless_of_validation (c : ConnEvents)
    (msg : Message) (hd : c.deadlineErr = false)
    (hr : c.readResult = some msg) :
    ∃ pre, handleRequest c = pre ++ [Effect.sendRequest c.conn msg] ∧
      (msg.type ≠ TypeQuery → msg.type ≠ TypeRelogin →
        Effect.closeConn c.conn ∈ pre) := by
  refine ⟨if msg.type = TypeQuery then []
    else if msg.type = TypeRelogin then []
    else
      [.writeMsg c.conn (NewError "invalid message")] ++
      (if c.writeErr then [.logError "Agent got message send error"]
       else []) ++
      [.closeConn c.conn], ?_, ?_⟩
  · simp [handleRequest, hd, hr]
  · intro h1 h2
    simp [h1, h2]

/-- Closed instance of C1: a connection delivering an unrecognized type
9999 still has its request forwarded, after the close. -/
theorem handleRequest_forwards_regardless_of_validation_witness :
    ∃ pre, handleRequest ⟨0, false, some ⟨9999, "p"⟩, false⟩ =
        pre ++ [Effect.sendRequest 0 ⟨9999, "p"⟩] ∧
      ((9999 : Nat) ≠ TypeQuery → (9999 : Nat) ≠ TypeRelogin →
        Effect.closeConn 0 ∈ pre) :=
  handleRequest_forwards_regardless_of_validation
    ⟨0, false, some ⟨9999, "p"⟩, false⟩ ⟨9999, "p"⟩ rfl rfl

/-- C2: for every accepted connection whose message is read successfully
but whose declared type is not accepted, `handleRequest` performs exactly
one message write, an error message with payload "invalid message", and
closes the connection; when the type is accepted no write is performed. -/
theorem handleRequest_invalid_type_single_error_write (c : ConnEvents)
    (msg : Message) (hd : c.deadlineErr = false)
    (hr : c.readResult = some msg) :
    (msg.type ≠ TypeQuery → msg.type ≠ TypeRelogin →
      (handleRequest c).filter isWrite =
        [Effect.writeMsg c.conn (NewError "invalid message")] ∧
      Effect.closeConn c.conn ∈ handleRequest c) ∧
    (msg.type = TypeQuery ∨ msg.type = TypeRelogin →
      (handleRequest c).filter isWrite = []) := by
  constructor
  · intro h1 h2
    cases hw : c.writeErr <;>
      simp [handleRequest, hd, hr, h1, h2, hw, isWrite]
  · rintro (h | h) <;>
      simp [handleRequest, hd, hr, h, TypeQuery, TypeRelogin, isWrite]

/-- Closed instance of C2: type 9999 gets exactly one error write and a
close; type `TypeQuery` gets no write. -/
theorem handleRequest_invalid_type_single_error_write_witness :
    (((9999 : Nat) ≠ TypeQuery → (9999 : Nat) ≠ TypeRelogin →
      (handleRequest ⟨1, false, some ⟨9999, "p"⟩, false⟩).filter isWrite =
        [Effect.writeMsg 1 (NewError "invalid message")] ∧
      Effect.closeConn 1 ∈ handleRequest ⟨1, false, some ⟨9999, "p"⟩, false⟩) ∧
    ((9999 : Nat) = TypeQuery ∨ (9999 : Nat) = TypeRelogin →
      (handleRequest ⟨1, false, some ⟨9999, "p"⟩, false⟩).filter isWrite = [])) :=
  handleRequest_invalid_type_single_error_write
    ⟨1, false, some ⟨9999, "p"⟩, false⟩ ⟨9999, "p"⟩ rfl rfl

/-- C4: when setting the deadline fails or reading the message fails,
`handleRequest` logs an error and closes the connection, sends nothing on
the handoff channel, and the accept loop continues with the remaining
connections. -/
theorem handleRequest_local_fault_no_handoff (c : ConnEvents)
    (rest : List ConnEvents) (stopping : Bool)
    (h : c.deadlineErr = true ∨ c.readResult = none) :
    (∃ t, handleRequest c = [Effect.logError t, Effect.closeConn c.conn]) ∧
    (∀ cn m, Effect.sendRequest cn m ∉ handleRequest c) ∧
    handleClients (c :: rest) stopping =
      handleRequest c ++ handleClients rest stopping := by
  have htrace : ∃ t, handleRequest c =
      [Effect.logError t, Effect.closeConn c.conn] := by
    rcases h with h | h
    · exact ⟨"Agent got error setting deadline", by simp [handleRequest, h]⟩
    · cases hd : c.deadlineErr
      · exact ⟨"Agent got message receive error",
          by simp [handleRequest, hd, h]⟩
      · exact ⟨"Agent got error setting deadline",
          by simp [handleRequest, hd]⟩
  obtain ⟨t, ht⟩ := htrace
  refine ⟨⟨t, ht⟩, ?_, handleClients_cons c rest stopping⟩
  intro cn m
  rw [ht]
  simp

/-- Closed instance of C4: a connection whose deadline-set fails produces
only a log and a close, no handoff, and the loop goes on. -/
theorem handleRequest_local_fault_no_handoff_witness :
    (∃ t, handleRequest ⟨5, true, none, false⟩ =
      [Effect.logError t, Effect.closeConn 5]) ∧
    (∀ cn m, Effect.sendRequest cn m ∉ handleRequest ⟨5, true, none, false⟩) ∧
    handleClients [⟨5, true, none, false⟩] false =
      handleRequest ⟨5, true, none, false⟩ ++ handleClients [] false :=
  handleRequest_local_fault_no_handoff ⟨5, true, none, false⟩ [] false
    (Or.inl rfl)

/-- C9: the validation switch accepts exactly the two distinct types
`TypeQuery` and `TypeRelogin`: an error write occurs in the intake trace
precisely when the read message's type is neither of the two. -/
theorem accepted_types_exactly_query_and_relogin (c : ConnEvents)
    (msg : Message) (hd : c.deadlineErr = false)
    (hr : c.readResult = some msg) :
    ((∃ e ∈ handleRequest c, isWrite e = true) ↔
      ¬(msg.type = TypeQuery ∨ msg.type = TypeRelogin)) ∧
    TypeQuery ≠ TypeRelogin := by
  refine ⟨?_, by decide⟩
  by_cases h1 : msg.type = TypeQuery
  · simp [handleRequest, hd, hr, h1, isWrite]
  · by_cases h2 : msg.type = TypeRelogin
    · simp [handleRequest, hd, hr, h1, h2, isWrite]
    · cases hw : c.writeErr <;>
        simp [handleRequest, hd, hr, h1, h2, hw, isWrite]

/-- Closed instance of C9: type `TypeRelogin` is accepted (no error
write), while type 0 is rejected. -/
theorem accepted_types_exactly_query_and_relogin_witness :
    ((∃ e ∈ handleRequest ⟨2, false, some ⟨TypeRelogin, "p"⟩, false⟩,
        isWrite e = true) ↔
      ¬((⟨TypeRelogin, "p"⟩ : Message).type = TypeQuery ∨
        (⟨TypeRelogin, "p"⟩ : Message).type = TypeRelogin)) ∧
    TypeQuery ≠ TypeRelogin :=
  accepted_types_exactly_query_and_relogin
    ⟨2, false, some ⟨TypeRelogin, "p"⟩, false⟩ ⟨TypeRelogin, "p"⟩ rfl rfl

theorem drain_append (l r : List Effect) (h : Effect.closeChannel ∉ l) :
    drainUntilClosed (l ++ Effect.closeChannel :: r) = some r := by
  induction l with
  | nil => simp [drainUntilClosed]
  | cons a t ih =>
      simp only [List.mem_cons, not_or] at h
      obtain ⟨h1, h2⟩ := h
      cases a <;> simp [drainUntilClosed] <;>
        first
        | exact ih (by simpa using h2)
        | exact absurd rfl h1

theorem drain_isSome_iff (l : List Effect) :
    (drainUntilClosed l).isSome ↔ Effect.closeChannel ∈ l := by
  induction l with
  | nil => simp [drainUntilClosed]
  | cons a t ih => cases a <;> simp [drainUntilClosed, ih]

theorem sendOf_handleRequest (c : ConnEvents) :
    (handleRequest c).filterMap sendOf = (forwarded c).toList := by
  rcases c with ⟨cn, de, rr, we⟩
  cases de
  · rcases rr with _ | msg
    · simp [handleRequest, forwarded, sendOf]
    · by_cases h1 : msg.type = TypeQuery
      · simp [handleRequest, forwarded, h1, sendOf]
      · by_cases h2 : msg.type = TypeRelogin
        · simp [handleRequest, forwarded, h1, h2, sendOf]
        · cases we <;> simp [handleRequest, forwarded, h1, h2, sendOf]
  · simp [handleRequest, forwarded, sendOf]

/-- C3: `Stop` sets the stopping flag before closing the listener and
aborts when that close fails; its drain loop over the requests channel
returns exactly when it observes the channel closed, and on the trace the
accept loop produces after the stop signal nothing at all, in particular
no channel send, remains after the channel close. -/
theorem stop_sequence_and_drain_closes (conns : List ConnEvents)
    (closeErr : Bool) :
    (∃ rest, stopEffects closeErr =
      [Effect.setStopping, Effect.closeListener] ++ rest) ∧
    (Effect.fatal "Agent could not close unix listener" ∈
        stopEffects closeErr ↔ closeErr = true) ∧
    drainUntilClosed (handleClients conns true) = some [] ∧
    (∀ t : List Effect,
      (drainUntilClosed t).isSome ↔ Effect.closeChannel ∈ t) := by
  refine ⟨⟨_, rfl⟩, ?_, ?_, drain_isSome_iff⟩
  · cases closeErr <;> simp [stopEffects]
  · have heq : handleClients conns true =
        (conns.flatMap handleRequest ++ [Effect.closeListener]) ++
          Effect.closeChannel :: [] := by
      simp [handleClients]
    rw [heq, drain_append]
    intro h
    rw [List.mem_append] at h
    rcases h with h | h
    · exact closeChannel_not_mem_flatMap conns h
    · simp at h

/-- C5: on any accept error the loop exits, logging the listener error
exactly when the stopping flag is not set, and its cleanup closes the
listening endpoint and then closes the handoff channel, the channel close
occurring exactly once, as the final effect. -/
theorem handleClients_exit_closes_listener_then_channel_once
    (conns : List ConnEvents) (stopping : Bool) :
    (∃ pre, handleClients conns stopping =
        pre ++ [Effect.closeListener, Effect.closeChannel] ∧
      Effect.closeChannel ∉ pre) ∧
    (Effect.logError "Agent got listener error" ∈
        handleClients conns stopping ↔ stopping = false) := by
  constructor
  · refine ⟨conns.flatMap handleRequest ++
      (if stopping then [] else [.logError "Agent got listener error"]),
      ?_, ?_⟩
    · simp [handleClients]
    · intro h
      rw [List.mem_append] at h
      rcases h with h | h
      · exact closeChannel_not_mem_flatMap conns h
      · cases stopping <;> simp at h
  · cases stopping
    · simp [handleClients]
    · simp [handleClients, List.mem_append]
      intro x hx h
      exact listenerLog_not_mem_flatMap conns
        (List.mem_flatMap.mpr ⟨x, hx, h⟩)

/-- C6: the requests sent on the handoff channel are exactly the
successfully read requests of the accepted connections, in acceptance
order (FIFO). -/
theorem handleClients_requests_fifo (conns : List ConnEvents)
    (stopping : Bool) :
    (handleClients conns stopping).filterMap sendOf =
      conns.filterMap forwarded := by
  induction conns with
  | nil => cases stopping <;> simp [handleClients, sendOf]
  | cons c rest ih =>
      rw [handleClients_cons, List.filterMap_append, sendOf_handleRequest, ih]
      cases hf : forwarded c <;> simp [hf]

/-- C7: `Start` logs the stale-socket warning exactly when the removal
succeeded (a file was present), aborts with a fatal error exactly when
the bind fails, and spawns the accept loop exactly when the bind
succeeds. -/
theorem start_warns_only_on_removed_file_and_bind_fatal
    (removeErr bindErr chmodErr : Bool) :
    (Effect.logWarn "Removed existing unix socket file" ∈
        Start removeErr bindErr chmodErr ↔ removeErr = false) ∧
    (Effect.fatal "Agent could not start unix listener" ∈
        Start removeErr bindErr chmodErr ↔ bindErr = true) ∧
    (Effect.spawnAcceptLoop ∈ Start removeErr bindErr chmodErr ↔
      bindErr = false) := by
  cases removeErr <;> cases bindErr <;> cases chmodErr <;>
    simp [Start]

/-- C8: `GetUserSocketFile` returns the path "/tmp/fw-id-agent-" followed
by the resolved uid, and aborts with a fatal error when the current user
cannot be resolved. -/
theorem getUserSocketFile_path_and_fatal (uid : String) :
    GetUserSocketFile (some uid) = .ok ("/tmp/fw-id-agent-" ++ uid) ∧
    GetUserSocketFile none = .error "Agent could not get current user" :=
  ⟨rfl, rfl⟩

/-- C10: the server returned by `NewServer` has a nil listener, so the
listener close inside `Stop` is a nil dereference panic unless a
successful `Start` has assigned the listener first. -/
theorem stop_before_start_nil_dereference (p : String) (s : Server) :
    stopCloseListener (NewServer p) = .error .nilDereference ∧
    stopCloseListener (startAssignListener s) = .ok () :=
  ⟨rfl, rfl⟩

end FwIdAgent
